import Mathlib

/-!
Shallow embedding of the sandboxed launcher `launch` from `src/lib.rs` of the
evalsa worker.  The parent-side control flow of `launch` is modelled as a pure
function from an environment record (abstracting the outcomes of the system
calls: wait status of each child, whether the deadline supervisor fired the
kill, and the byte chunks successively returned by `read` on each pipe) to the
returned `LaunchResult` together with a trace of the externally visible parent
actions (pipe creation, spawns, mounts, unmounts, fd closes, pipe drains).
The run-phase child's in-child setup sequence (the closure passed to `clone`)
is modelled as a separate straight-line operation list `runChildOps`.

Machine integers: the Rust side uses `usize`/`u64` quantities that the code
never overflows; they are modelled as `Nat` (sizes) and `Int` (rusage fields,
`i32` exit codes).  Shift literals `2 << 10` and `256 << 20` are reproduced
with `Nat.shiftLeft`.
-/

namespace Worker

/-- `Language` record, `src/lib.rs` lines 22-29. -/
structure Language where
  name : String
  source : String
  compile : Option String
  execute : String
  args : List String
deriving Repr, DecidableEq

/-- `Mount` record, `src/lib.rs` lines 37-41. -/
structure Mount where
  source : String
  destination : String
deriving Repr, DecidableEq

/-- `Sandbox` record, `src/lib.rs` lines 31-35. -/
structure Sandbox where
  stack_size_bytes : Nat
  mounts : List Mount
deriving Repr, DecidableEq

/-- `LaunchOption` record, `src/lib.rs` lines 43-47. -/
structure LaunchOption where
  timeout : Nat
  max_virtual_memory : Nat
deriving Repr, DecidableEq

/-- `LaunchStatus` enum, `src/lib.rs` lines 58-65. -/
inductive LaunchStatus where
  | Exit (code : Int)
  | CompilationError
  | RuntimeError
  | OutputLimitExceeded
  | TimeLimitExceeded
deriving Repr, DecidableEq

/-- `LaunchResult` record, `src/lib.rs` lines 49-56.  Byte streams are lists
of bytes (modelled as `Nat`). -/
structure LaunchResult where
  status : LaunchStatus
  stdout : List Nat
  stderr : List Nat
  memory_kib : Int
  user_time_ms : Int
deriving Repr, DecidableEq

/-- Abstraction of a raw `wait4` status word: the child either exited with a
code (`WIFEXITED`) or was terminated by a signal. -/
inductive WaitKind where
  | exited (code : Int)
  | signaled (sig : Int)
deriving Repr, DecidableEq

/-- `libc::WIFEXITED` on the abstracted status. -/
def wifexited : WaitKind → Bool
  | .exited _ => true
  | .signaled _ => false

/-- `libc::WEXITSTATUS` on the abstracted status (only meaningful when
`wifexited`). -/
def wexitstatus : WaitKind → Int
  | .exited c => c
  | .signaled _ => 0

/-- `libc::WTERMSIG` on the abstracted status (only meaningful when not
`wifexited`). -/
def wtermsig : WaitKind → Int
  | .exited _ => 0
  | .signaled s => s

/-- Signal number of `SIGKILL` on Linux. -/
def SIGKILL : Int := 9

/-- Environment record abstracting everything the operating system decides
during one call to `launch`: the compile child's wait status, whether the
deadline supervisor's `kill(pid, SIGKILL)` at `src/lib.rs` lines 113-115 /
211-213 ever fired, the run child's wait status, the successive chunks
returned by `read` on each captured pipe (list end = EOF, each chunk at most
the 8192-byte buffer), and the `rusage` fields the result consumes. -/
structure Env where
  compileWait : WaitKind
  compileKillFired : Bool
  compileStderrChunks : List (List Nat)
  runWait : WaitKind
  runKillFired : Bool
  runStdoutChunks : List (List Nat)
  runStderrChunks : List (List Nat)
  ru_majflt : Int
  ru_utime_sec : Int
  ru_utime_usec : Int
deriving Repr, DecidableEq

/-- The stderr cap `2 << 10` from `src/lib.rs` lines 130 and 250. -/
def stderrCap : Nat := 2 <<< 10

/-- The stdout cap `256 << 20` from `src/lib.rs` line 239. -/
def stdoutCap : Nat := 256 <<< 20

/-- The read buffer size `8192` from `src/lib.rs` lines 122 and 231. -/
def bufferSize : Nat := 8192

/-- The stderr drain loop, `src/lib.rs` lines 124-133 and 244-253: read a
chunk; a zero-length read (EOF) breaks; otherwise append and break once the
accumulated length exceeds `2 << 10`. -/
def readCapped (chunks : List (List Nat)) (acc : List Nat) : List Nat :=
  match chunks with
  | [] => acc
  | c :: cs =>
    if c.length = 0 then acc
    else if stderrCap < (acc ++ c).length then acc ++ c
    else readCapped cs (acc ++ c)

/-- The stdout drain loop, `src/lib.rs` lines 233-242: read until EOF,
appending every chunk; whenever the accumulated length exceeds `256 << 20`,
overwrite the status with `OutputLimitExceeded` (draining continues). -/
def readStdoutPhase (chunks : List (List Nat)) (acc : List Nat)
    (st : LaunchStatus) : List Nat × LaunchStatus :=
  match chunks with
  | [] => (acc, st)
  | c :: cs =>
    if c.length = 0 then (acc, st)
    else readStdoutPhase cs (acc ++ c)
      (if stdoutCap < (acc ++ c).length then LaunchStatus.OutputLimitExceeded else st)

/-- The exit-based status classification, `src/lib.rs` lines 222-228. -/
def statusOfWait (w : WaitKind) : LaunchStatus :=
  if wifexited w then .Exit (wexitstatus w)
  else if wtermsig w = SIGKILL then .TimeLimitExceeded
  else .RuntimeError

/-- Identifiers for the pipe file descriptors the parent allocates. -/
inductive Fd where
  | compileStderrRx | compileStderrTx
  | runStdoutRx | runStdoutTx
  | runStderrRx | runStderrTx
deriving Repr, DecidableEq

/-- Which child a spawn/reap/kill event refers to. -/
inductive Phase where
  | comp | run
deriving Repr, DecidableEq

/-- Mount flags passed at `src/lib.rs` line 166. -/
inductive MountFlag where
  | bind | rdonly | noatime | nodiratime
deriving Repr, DecidableEq

/-- Namespace and signal configuration passed to `clone`
(`src/lib.rs` lines 99-100 and 197-198): `CLONE_NEWUSER`, `CLONE_NEWNET`,
and `SIGCHLD` (signal number 17 on Linux) delivered to the parent. -/
structure CloneConfig where
  newUser : Bool
  newNet : Bool
  exitSignal : Option Nat
deriving Repr, DecidableEq

/-- Both `clone` calls use new user and network namespaces with SIGCHLD. -/
def cloneCfg : CloneConfig := { newUser := true, newNet := true, exitSignal := some 17 }

/-- Externally visible parent-side actions of `launch`, in program order. -/
inductive Event where
  | pipeCreated (rx tx : Fd)
  | spawned (p : Phase) (stackSize : Nat) (cfg : CloneConfig)
  | sentKill (p : Phase)
  | reaped (p : Phase)
  | mkdirAll (dest : List Char)
  | mounted (src : List Char) (dest : List Char) (flags : List MountFlag)
  | unmounted (dest : List Char)
  | closedFd (fd : Fd)
  | readPipe (fd : Fd)
deriving Repr, DecidableEq

/-- `Path::join` for a relative right operand: append one separator and the
relative path. -/
def pathJoin (base rel : List Char) : List Char := base ++ '/' :: rel

/-- `str::trim_start_matches('/')`: drop every leading slash. -/
def trimLeadingSlashes (s : List Char) : List Char :=
  s.dropWhile (fun c => c = '/')

/-- Destination path computed at `src/lib.rs` lines 157 and 216:
`path.join(mount.destination.trim_start_matches('/'))`. -/
def mountDest (path : List Char) (m : Mount) : List Char :=
  pathJoin path (trimLeadingSlashes m.destination.data)

/-- The flag set `MS_BIND | MS_RDONLY | MS_NOATIME | MS_NODIRATIME` of
`src/lib.rs` line 166. -/
def bindFlags : List MountFlag := [.bind, .rdonly, .noatime, .nodiratime]

/-- The mount loop, `src/lib.rs` lines 156-170: for each mount in list order,
recursively create the destination directory (and hence all its parents),
then bind-mount the source onto it. -/
def mountEvents (path : List Char) (ms : List Mount) : List Event :=
  ms.flatMap fun m =>
    [.mkdirAll (mountDest path m),
     .mounted m.source.data (mountDest path m) bindFlags]

/-- The unmount loop, `src/lib.rs` lines 215-218. -/
def umountEvents (path : List Char) (ms : List Mount) : List Event :=
  ms.map fun m => .unmounted (mountDest path m)

/-- The compile child's stack is a fixed `vec![0; 1048576]`,
`src/lib.rs` line 86. -/
def compileStackBytes : Nat := 1048576

/-- Parent-side events of the compile phase (`src/lib.rs` lines 79-120):
create the stderr pipe, spawn the compile child on the fixed 1 MiB stack,
possibly fire the deadline kill, reap, close the pipe's write end. -/
def compileEvs (env : Env) : List Event :=
  [.pipeCreated .compileStderrRx .compileStderrTx,
   .spawned .comp compileStackBytes cloneCfg]
  ++ (if env.compileKillFired then [.sentKill .comp] else [])
  ++ [.reaped .comp, .closedFd .compileStderrTx]

/-- Parent-side events of the run phase (`src/lib.rs` lines 143-253): create
the stdout and stderr pipes, apply the mounts, spawn the run child on the
sandbox-profile stack, possibly fire the deadline kill, reap, unmount, close
the two write ends, drain stdout then stderr. -/
def runEvs (env : Env) (path : List Char) (sandbox : Sandbox) : List Event :=
  ([.pipeCreated .runStdoutRx .runStdoutTx,
    .pipeCreated .runStderrRx .runStderrTx]
   ++ mountEvents path sandbox.mounts)
  ++ Event.spawned .run sandbox.stack_size_bytes cloneCfg ::
     ((if env.runKillFired then [.sentKill .run] else [])
      ++ Event.reaped .run ::
         (umountEvents path sandbox.mounts
          ++ [.closedFd .runStdoutTx, .closedFd .runStderrTx,
              .readPipe .runStdoutRx, .readPipe .runStderrRx]))

/-- Result of the run phase, `src/lib.rs` lines 202-260: classify the wait
status, drain stdout (possibly overriding the status with
`OutputLimitExceeded`), drain stderr with the 2 KiB cap, and assemble the
result with `memory_kib = ru_majflt * 4` and
`user_time_ms = utime_sec * 1000 + utime_usec / 1000`. -/
def runResult (env : Env) : LaunchResult :=
  let st0 := statusOfWait env.runWait
  let out := readStdoutPhase env.runStdoutChunks [] st0
  { status := out.2
    stdout := out.1
    stderr := readCapped env.runStderrChunks []
    memory_kib := env.ru_majflt * 4
    user_time_ms := env.ru_utime_sec * 1000 + env.ru_utime_usec / 1000 }

/-- The compile phase fails when a compile command is present and the compile
child did not exit with status 0 (`src/lib.rs` line 121). -/
def compileFailed (language : Language) (env : Env) : Bool :=
  match language.compile with
  | none => false
  | some _ => !(wifexited env.compileWait) || wexitstatus env.compileWait != 0

/-- `launch`, `src/lib.rs` lines 67-261, as a function from the abstract
environment to the returned `LaunchResult` and the parent-side event trace.
If a compile command is present, the compile phase runs first; on compile
failure the compile stderr pipe is drained and a `CompilationError` result is
returned immediately (lines 121-141), otherwise the run phase executes. -/
def launch (env : Env) (path : List Char) (language : Language)
    (sandbox : Sandbox) (opt : LaunchOption) : LaunchResult × List Event :=
  match language.compile with
  | some _ =>
    if !(wifexited env.compileWait) || wexitstatus env.compileWait != 0 then
      ({ status := .CompilationError
         stdout := []
         stderr := readCapped env.compileStderrChunks []
         memory_kib := 0
         user_time_ms := 0 },
       compileEvs env ++ [.readPipe .compileStderrRx])
    else
      (runResult env, compileEvs env ++ runEvs env path sandbox)
  | none => (runResult env, runEvs env path sandbox)

/-- The run-phase child's setup sequence, `src/lib.rs` lines 174-194, in
program order: `chdir` then `chroot` into the workspace; close fd 0 and open
`/stdin` read-only (which becomes fd 0); close fd 1, duplicate the stdout
pipe's write end onto fd 1 and close the original; likewise for stderr onto
fd 2; install the three rlimits (core 0/0, fsize 0/0, address space
`max_virtual_memory` soft and hard); finally `execve` the recipe's execute
path with argv = execute :: args and an empty environment. -/
inductive ChildOp where
  | doChdir (p : List Char)
  | doChroot (p : List Char)
  | doCloseFd (n : Nat)
  | doOpen (p : List Char) (readOnly : Bool)
  | doDup2 (src : Fd) (dst : Nat)
  | doClosePipe (fd : Fd)
  | doSetrlimitCore (soft hard : Nat)
  | doSetrlimitFsize (soft hard : Nat)
  | doSetrlimitAs (soft hard : Nat)
  | doExecve (p : List Char) (args : List (List Char)) (envp : List (List Char))
deriving Repr, DecidableEq

/-- Transcription of the run-phase child closure, `src/lib.rs` lines 174-194. -/
def runChildOps (path : List Char) (language : Language)
    (opt : LaunchOption) : List ChildOp :=
  [.doChdir path,
   .doChroot path,
   .doCloseFd 0,
   .doOpen "/stdin".data true,
   .doCloseFd 1,
   .doDup2 .runStdoutTx 1,
   .doClosePipe .runStdoutTx,
   .doCloseFd 2,
   .doDup2 .runStderrTx 2,
   .doClosePipe .runStderrTx,
   .doSetrlimitCore 0 0,
   .doSetrlimitFsize 0 0,
   .doSetrlimitAs opt.max_virtual_memory opt.max_virtual_memory,
   .doExecve language.execute.data
     (language.execute.data :: language.args.map String.data) []]

/-- Destinations of the `mounted` events of a trace, in order. -/
def mountedDests : List Event → List (List Char)
  | [] => []
  | .mounted _ d _ :: tr => d :: mountedDests tr
  | _ :: tr => mountedDests tr

/-- Destinations of the `unmounted` events of a trace, in order. -/
def unmountedDests : List Event → List (List Char)
  | [] => []
  | .unmounted d :: tr => d :: unmountedDests tr
  | _ :: tr => unmountedDests tr

/- Concrete inputs used by counterexamples and witnesses. -/

/-- An interpreted-language recipe (no compile command). -/
def noCompileLang : Language :=
  { name := "python", source := "main.py", compile := none,
    execute := "/usr/bin/python3", args := [] }

/-- A compiled-language recipe. -/
def gccLang : Language :=
  { name := "c", source := "main.c", compile := some "gcc main.c",
    execute := "/a.out", args := [] }

/-- A sandbox profile with no mounts and a 1 MiB child stack. -/
def emptySandbox : Sandbox := { stack_size_bytes := 1048576, mounts := [] }

/-- A sandbox profile with one mount and a 4096-byte child stack. -/
def smallStackSandbox : Sandbox :=
  { stack_size_bytes := 4096, mounts := [] }

/-- A sandbox profile bind-mounting host `/usr` at sandbox `/usr`. -/
def usrSandbox : Sandbox :=
  { stack_size_bytes := 2097152,
    mounts := [{ source := "/usr", destination := "/usr" }] }

/-- The limits `main.rs` passes: 1000 ms, 1 GiB. -/
def defaultOpt : LaunchOption := { timeout := 1000, max_virtual_memory := 1 <<< 30 }

/-- A concrete workspace path. -/
def ws : List Char := "/tmp/job".data

/-- Environment where the run child dies by SIGKILL it sent to itself: the
supervisor never fired, the compile child (if any) exits 0, all streams
are empty. -/
def selfKillEnv : Env :=
  { compileWait := .exited 0, compileKillFired := false,
    compileStderrChunks := [], runWait := .signaled SIGKILL,
    runKillFired := false, runStdoutChunks := [], runStderrChunks := [],
    ru_majflt := 0, ru_utime_sec := 0, ru_utime_usec := 0 }

/-- Environment where the run child exits 0 after writing a single
2049-byte chunk to stderr. -/
def bigStderrEnv : Env :=
  { compileWait := .exited 0, compileKillFired := false,
    compileStderrChunks := [], runWait := .exited 0,
    runKillFired := false, runStdoutChunks := [],
    runStderrChunks := [List.replicate 2049 65],
    ru_majflt := 0, ru_utime_sec := 0, ru_utime_usec := 0 }

/-- Environment where the compile child exits 1 after writing `err` to the
captured stderr pipe. -/
def failCompileEnv : Env :=
  { compileWait := .exited 1, compileKillFired := false,
    compileStderrChunks := [[101, 114, 114]], runWait := .exited 0,
    runKillFired := false, runStdoutChunks := [], runStderrChunks := [],
    ru_majflt := 0, ru_utime_sec := 0, ru_utime_usec := 0 }

/- Helper lemmas about the stream collector loops. -/

theorem readStdoutPhase_length_le (chunks : List (List Nat)) (acc : List Nat)
    (st : LaunchStatus) :
    acc.length ≤ (readStdoutPhase chunks acc st).1.length := by
  induction chunks generalizing acc st with
  | nil => simp [readStdoutPhase]
  | cons c cs ih =>
    simp only [readStdoutPhase]
    split
    · simp
    · exact le_trans (by simp) (ih (acc ++ c) _)

theorem readStdoutPhase_snd (chunks : List (List Nat)) (acc : List Nat)
    (st : LaunchStatus) (h : stdoutCap < acc.length → st = .OutputLimitExceeded) :
    (readStdoutPhase chunks acc st).2 =
      if stdoutCap < (readStdoutPhase chunks acc st).1.length then
        .OutputLimitExceeded
      else st := by
  induction chunks generalizing acc st with
  | nil =>
    simp only [readStdoutPhase]
    by_cases hc : stdoutCap < acc.length
    · simp [hc, h hc]
    · simp [hc]
  | cons c cs ih =>
    simp only [readStdoutPhase]
    split
    · by_cases hc : stdoutCap < acc.length
      · simp [hc, h hc]
      · simp [hc]
    · by_cases hc : stdoutCap < (acc ++ c).length
      · rw [if_pos hc]
        rw [ih (acc ++ c) _ (fun _ => rfl)]
        have hlt : stdoutCap <
            (readStdoutPhase cs (acc ++ c) LaunchStatus.OutputLimitExceeded).1.length :=
          lt_of_lt_of_le hc (readStdoutPhase_length_le cs (acc ++ c) _)
        simp [hlt]
      · rw [if_neg hc]
        exact ih (acc ++ c) st (fun hx => absurd hx hc)

theorem readStdoutPhase_replicate (k : Nat) (acc : List Nat) (st : LaunchStatus) :
    (readStdoutPhase (List.replicate k [0]) acc st).1.length = acc.length + k := by
  induction k generalizing acc st with
  | zero => simp [readStdoutPhase]
  | succ n ih =>
    rw [List.replicate_succ]
    simp only [readStdoutPhase, List.length_cons, List.length_nil]
    rw [if_neg (by simp)]
    rw [ih]
    simp
    omega

theorem readCapped_length_le (chunks : List (List Nat)) (acc : List Nat)
    (hc : ∀ c ∈ chunks, c.length ≤ bufferSize) (ha : acc.length ≤ stderrCap) :
    (readCapped chunks acc).length ≤ stderrCap + bufferSize := by
  induction chunks generalizing acc with
  | nil =>
    simp only [readCapped]
    exact le_trans ha (Nat.le_add_right _ _)
  | cons c cs ih =>
    simp only [readCapped]
    split
    · exact le_trans ha (Nat.le_add_right _ _)
    · split
      · have h1 : c.length ≤ bufferSize := hc c (List.mem_cons_self c cs)
        simp only [List.length_append]
        omega
      · rename_i hover
        exact ih (acc ++ c) (fun d hd => hc d (List.mem_cons_of_mem c hd))
          (by simpa using Nat.le_of_not_lt hover)

/- Helper lemmas about the status classification. -/

theorem statusOfWait_eq_tle_iff (w : WaitKind) :
    statusOfWait w = .TimeLimitExceeded ↔ w = .signaled SIGKILL := by
  cases w with
  | exited c => simp [statusOfWait, wifexited]
  | signaled s =>
    by_cases h : s = SIGKILL <;>
      simp [statusOfWait, wifexited, wtermsig, h]

theorem statusOfWait_ne_ole (w : WaitKind) :
    statusOfWait w ≠ .OutputLimitExceeded := by
  cases w with
  | exited c => simp [statusOfWait, wifexited]
  | signaled s =>
    by_cases h : s = SIGKILL <;>
      simp [statusOfWait, wifexited, wtermsig, h]

theorem statusOfWait_ne_ce (w : WaitKind) :
    statusOfWait w ≠ .CompilationError := by
  cases w with
  | exited c => simp [statusOfWait, wifexited]
  | signaled s =>
    by_cases h : s = SIGKILL <;>
      simp [statusOfWait, wifexited, wtermsig, h]

/- Helper lemmas about `launch`'s two branches. -/

theorem compileFailed_iff (l : Language) (env : Env) :
    compileFailed l env = true ↔ l.compile ≠ none ∧ env.compileWait ≠ .exited 0 := by
  cases hl : l.compile with
  | none => simp [compileFailed, hl]
  | some c =>
    cases hw : env.compileWait with
    | exited k =>
      by_cases hk : k = 0 <;>
        simp [compileFailed, hl, hw, wifexited, wexitstatus, hk]
    | signaled s => simp [compileFailed, hl, hw, wifexited]

theorem launch_fst_pass (env : Env) (path : List Char) (l : Language)
    (s : Sandbox) (o : LaunchOption) (h : compileFailed l env = false) :
    (launch env path l s o).1 = runResult env := by
  cases hl : l.compile with
  | none => simp [launch, hl]
  | some c =>
    simp only [compileFailed, hl] at h
    simp [launch, hl, h]

theorem launch_snd_none (env : Env) (path : List Char) (l : Language)
    (s : Sandbox) (o : LaunchOption) (hl : l.compile = none) :
    (launch env path l s o).2 = runEvs env path s := by
  simp [launch, hl]

theorem launch_snd_pass (env : Env) (path : List Char) (l : Language)
    (s : Sandbox) (o : LaunchOption) (c : String) (hl : l.compile = some c)
    (h : compileFailed l env = false) :
    (launch env path l s o).2 = compileEvs env ++ runEvs env path s := by
  simp only [compileFailed, hl] at h
  simp [launch, hl, h]

theorem launch_fail (env : Env) (path : List Char) (l : Language)
    (s : Sandbox) (o : LaunchOption) (c : String) (hl : l.compile = some c)
    (h : compileFailed l env = true) :
    launch env path l s o =
      ({ status := .CompilationError, stdout := [],
         stderr := readCapped env.compileStderrChunks [],
         memory_kib := 0, user_time_ms := 0 },
       compileEvs env ++ [.readPipe .compileStderrRx]) := by
  simp only [compileFailed, hl] at h
  simp [launch, hl, h]

/- Helper lemmas about traces. -/

theorem mountedDests_append (a b : List Event) :
    mountedDests (a ++ b) = mountedDests a ++ mountedDests b := by
  induction a with
  | nil => rfl
  | cons e tr ih => cases e <;> simp [mountedDests, ih]

theorem unmountedDests_append (a b : List Event) :
    unmountedDests (a ++ b) = unmountedDests a ++ unmountedDests b := by
  induction a with
  | nil => rfl
  | cons e tr ih => cases e <;> simp [unmountedDests, ih]

theorem mountEvents_cons (path : List Char) (m : Mount) (ms : List Mount) :
    mountEvents path (m :: ms) =
      Event.mkdirAll (mountDest path m) ::
        Event.mounted m.source.data (mountDest path m) bindFlags ::
          mountEvents path ms := by
  simp [mountEvents]

theorem umountEvents_cons (path : List Char) (m : Mount) (ms : List Mount) :
    umountEvents path (m :: ms) =
      Event.unmounted (mountDest path m) :: umountEvents path ms := by
  simp [umountEvents]

theorem mountedDests_cons (e : Event) (tr : List Event) :
    mountedDests (e :: tr) =
      (match e with | .mounted _ d _ => [d] | _ => []) ++ mountedDests tr := by
  cases e <;> rfl

theorem unmountedDests_cons (e : Event) (tr : List Event) :
    unmountedDests (e :: tr) =
      (match e with | .unmounted d => [d] | _ => []) ++ unmountedDests tr := by
  cases e <;> rfl

theorem mountedDests_mountEvents (path : List Char) (ms : List Mount) :
    mountedDests (mountEvents path ms) = ms.map (mountDest path) := by
  induction ms with
  | nil => rfl
  | cons m ms ih => simp [mountEvents_cons, mountedDests_cons, ih]

theorem unmountedDests_mountEvents (path : List Char) (ms : List Mount) :
    unmountedDests (mountEvents path ms) = [] := by
  induction ms with
  | nil => rfl
  | cons m ms ih => simp [mountEvents_cons, unmountedDests_cons, ih]

theorem mountedDests_umountEvents (path : List Char) (ms : List Mount) :
    mountedDests (umountEvents path ms) = [] := by
  induction ms with
  | nil => rfl
  | cons m ms ih => simp [umountEvents_cons, mountedDests_cons, ih]

theorem unmountedDests_umountEvents (path : List Char) (ms : List Mount) :
    unmountedDests (umountEvents path ms) = ms.map (mountDest path) := by
  induction ms with
  | nil => rfl
  | cons m ms ih => simp [umountEvents_cons, unmountedDests_cons, ih]

theorem mountedDests_compileEvs (env : Env) :
    mountedDests (compileEvs env) = [] := by
  cases h : env.compileKillFired <;> simp [compileEvs, h, mountedDests]

theorem unmountedDests_compileEvs (env : Env) :
    unmountedDests (compileEvs env) = [] := by
  cases h : env.compileKillFired <;> simp [compileEvs, h, unmountedDests]

theorem mem_mountEvents (e : Event) (path : List Char) (ms : List Mount) :
    e ∈ mountEvents path ms ↔
      ∃ m ∈ ms, e = .mkdirAll (mountDest path m) ∨
        e = .mounted m.source.data (mountDest path m) bindFlags := by
  simp [mountEvents, List.mem_flatMap]

theorem mem_umountEvents (e : Event) (path : List Char) (ms : List Mount) :
    e ∈ umountEvents path ms ↔ ∃ m ∈ ms, e = .unmounted (mountDest path m) := by
  constructor
  · intro h
    obtain ⟨m, hm, he⟩ := List.mem_map.mp h
    exact ⟨m, hm, he.symm⟩
  · rintro ⟨m, hm, rfl⟩
    exact List.mem_map.mpr ⟨m, hm, rfl⟩

theorem mountEvents_decomp (path : List Char) (ms : List Mount) (m : Mount)
    (hm : m ∈ ms) :
    ∃ u v, mountEvents path ms =
      u ++ Event.mkdirAll (mountDest path m) ::
        Event.mounted m.source.data (mountDest path m) bindFlags :: v := by
  induction ms with
  | nil => cases hm
  | cons m0 ms ih =>
    rcases List.mem_cons.mp hm with h | h
    · subst h
      exact ⟨[], mountEvents path ms, by simp [mountEvents_cons]⟩
    · obtain ⟨u, v, huv⟩ := ih h
      refine ⟨Event.mkdirAll (mountDest path m0) ::
        Event.mounted m0.source.data (mountDest path m0) bindFlags :: u, v, ?_⟩
      simp [mountEvents_cons, huv]

theorem mem_compileEvs_closedFd (env : Env) (fd : Fd) :
    Event.closedFd fd ∈ compileEvs env ↔ fd = .compileStderrTx := by
  cases h : env.compileKillFired <;> simp [compileEvs, h]

theorem mem_runEvs_closedFd (env : Env) (path : List Char) (s : Sandbox) (fd : Fd) :
    Event.closedFd fd ∈ runEvs env path s ↔
      fd = .runStdoutTx ∨ fd = .runStderrTx := by
  cases h : env.runKillFired <;>
    simp [runEvs, h, mem_mountEvents, mem_umountEvents]

theorem mem_compileEvs_spawned (env : Env) (p : Phase) (n : Nat) (cfg : CloneConfig) :
    Event.spawned p n cfg ∈ compileEvs env ↔
      p = .comp ∧ n = compileStackBytes ∧ cfg = cloneCfg := by
  cases h : env.compileKillFired <;> simp [compileEvs, h]

theorem mem_runEvs_spawned (env : Env) (path : List Char) (s : Sandbox)
    (p : Phase) (n : Nat) (cfg : CloneConfig) :
    Event.spawned p n cfg ∈ runEvs env path s ↔
      p = .run ∧ n = s.stack_size_bytes ∧ cfg = cloneCfg := by
  cases h : env.runKillFired <;>
    simp [runEvs, h, mem_mountEvents, mem_umountEvents]

theorem not_mem_compileEvs_readPipe (env : Env) (fd : Fd) :
    Event.readPipe fd ∉ compileEvs env := by
  cases h : env.compileKillFired <;> simp [compileEvs, h]

theorem mem_runEvs_readPipe (env : Env) (path : List Char) (s : Sandbox) (fd : Fd) :
    Event.readPipe fd ∈ runEvs env path s ↔
      fd = .runStdoutRx ∨ fd = .runStderrRx := by
  cases h : env.runKillFired <;>
    simp [runEvs, h, mem_mountEvents, mem_umountEvents]

theorem mem_runEvs_mounted (env : Env) (path : List Char) (s : Sandbox)
    (src d : List Char) (fl : List MountFlag) :
    Event.mounted src d fl ∈ runEvs env path s ↔
      Event.mounted src d fl ∈ mountEvents path s.mounts := by
  cases h : env.runKillFired <;>
    simp [runEvs, h, mem_mountEvents, mem_umountEvents]

theorem not_mem_compileEvs_mounted (env : Env) (src d : List Char)
    (fl : List MountFlag) :
    Event.mounted src d fl ∉ compileEvs env := by
  cases h : env.compileKillFired <;> simp [compileEvs, h]

theorem mountedDests_nil : mountedDests [] = [] := rfl

theorem unmountedDests_nil : unmountedDests [] = [] := rfl

theorem mountedDests_runEvs (env : Env) (path : List Char) (s : Sandbox) :
    mountedDests (runEvs env path s) = s.mounts.map (mountDest path) := by
  cases hk : env.runKillFired <;>
    simp [runEvs, hk, mountedDests_append, mountedDests_cons, mountedDests_nil,
      mountedDests_mountEvents, mountedDests_umountEvents]

theorem unmountedDests_runEvs (env : Env) (path : List Char) (s : Sandbox) :
    unmountedDests (runEvs env path s) = s.mounts.map (mountDest path) := by
  cases hk : env.runKillFired <;>
    simp [runEvs, hk, unmountedDests_append, unmountedDests_cons, unmountedDests_nil,
      unmountedDests_mountEvents, unmountedDests_umountEvents]

theorem runResult_status (env : Env) :
    (runResult env).status =
      if stdoutCap < (runResult env).stdout.length then .OutputLimitExceeded
      else statusOfWait env.runWait := by
  have h := readStdoutPhase_snd env.runStdoutChunks [] (statusOfWait env.runWait)
    (fun hx => absurd hx (by simp))
  simpa [runResult] using h

/-- Environment that makes the compile phase (if any) succeed and the run
child exit 0 after writing `n` one-byte stdout chunks. -/
def floodEnv (n : Nat) : Env :=
  { compileWait := .exited 0, compileKillFired := false,
    compileStderrChunks := [], runWait := .exited 0,
    runKillFired := false, runStdoutChunks := List.replicate n [0],
    runStderrChunks := [],
    ru_majflt := 0, ru_utime_sec := 0, ru_utime_usec := 0 }

theorem compileFailed_floodEnv (l : Language) (n : Nat) :
    compileFailed l (floodEnv n) = false := by
  cases hl : l.compile <;>
    simp [compileFailed, hl, floodEnv, wifexited, wexitstatus]

set_option maxRecDepth 8192

/-- C1 counterexample: a run child that dies by `SIGKILL` which the deadline
supervisor never sent (for instance one that kills itself) is still reported
as `TimeLimitExceeded`: the classification at `src/lib.rs` lines 222-228
looks only at `WTERMSIG`, not at whether the supervisor fired. -/
theorem tle_without_supervisor_kill :
    (launch selfKillEnv ws noCompileLang emptySandbox defaultOpt).1.status =
        .TimeLimitExceeded ∧
      selfKillEnv.runKillFired = false ∧
      Event.sentKill .run ∉
        (launch selfKillEnv ws noCompileLang emptySandbox defaultOpt).2 := by
  refine ⟨rfl, rfl, ?_⟩
  decide

/-- C1 (amended): when the run phase executes, the returned status is
`TimeLimitExceeded` iff the run child was terminated by signal `SIGKILL` —
regardless of whether the deadline supervisor delivered it — and the stdout
cap was not exceeded (an exceeded cap overrides the status with
`OutputLimitExceeded`). -/
theorem tle_iff_killed_by_sigkill (env : Env) (path : List Char) (l : Language)
    (s : Sandbox) (o : LaunchOption) (h : compileFailed l env = false) :
    (launch env path l s o).1.status = .TimeLimitExceeded ↔
      env.runWait = .signaled SIGKILL ∧
        (launch env path l s o).1.stdout.length ≤ stdoutCap := by
  rw [launch_fst_pass env path l s o h, runResult_status]
  by_cases hc : stdoutCap < (runResult env).stdout.length
  · rw [if_pos hc]
    constructor
    · intro hx; cases hx
    · rintro ⟨_, hle⟩; exact absurd hle (Nat.not_le.mpr hc)
  · rw [if_neg hc]
    simp [statusOfWait_eq_tle_iff, Nat.not_lt.mp hc]

/-- C1 witness: the amended claim applied at a concrete input. -/
theorem tle_iff_killed_by_sigkill_wit :
    compileFailed noCompileLang selfKillEnv = false ∧
      ((launch selfKillEnv ws noCompileLang emptySandbox defaultOpt).1.status =
          .TimeLimitExceeded ↔
        selfKillEnv.runWait = .signaled SIGKILL ∧
          (launch selfKillEnv ws noCompileLang emptySandbox
              defaultOpt).1.stdout.length ≤ stdoutCap) :=
  ⟨by decide,
   tle_iff_killed_by_sigkill selfKillEnv ws noCompileLang emptySandbox defaultOpt
     (by decide)⟩

/-- C2 counterexample: a single 2049-byte stderr read yields a returned
stderr of 2049 > 2048 bytes — the collector breaks only after the cap is
already exceeded (`src/lib.rs` lines 249-252), so `len(stderr) ≤ 2048` fails
(and with it the claimed conjunction of both stream bounds). -/
theorem stream_caps_violated :
    2048 < (launch bigStderrEnv ws noCompileLang emptySandbox
        defaultOpt).1.stderr.length := by
  have he : (launch bigStderrEnv ws noCompileLang emptySandbox
      defaultOpt).1.stderr = List.replicate 2049 65 := by
    simp [launch, noCompileLang, bigStderrEnv, runResult, readCapped, stderrCap]
  rw [he]
  simp

/-- C2 (amended): the returned stderr holds at most `2048 + 8192` bytes
(the collector stops reading only after first exceeding the 2 KiB cap, so it
can overshoot by at most one buffer-sized read), provided every `read`
returns at most the 8192-byte buffer; the stdout cap does not bound the
returned stdout — the collector drains it to EOF in full, and for every `n`
some environment yields more than `n` bytes of stdout. -/
theorem stderr_overshoot_bound_stdout_unbounded (path : List Char)
    (l : Language) (s : Sandbox) (o : LaunchOption) :
    (∀ env : Env, (∀ c ∈ env.compileStderrChunks, c.length ≤ bufferSize) →
        (∀ c ∈ env.runStderrChunks, c.length ≤ bufferSize) →
        (launch env path l s o).1.stderr.length ≤ stderrCap + bufferSize) ∧
      (∀ n : Nat, ∃ env : Env,
        n < (launch env path l s o).1.stdout.length) := by
  constructor
  · intro env hcc hrc
    cases hl : l.compile with
    | none =>
      rw [launch_fst_pass env path l s o (by simp [compileFailed, hl])]
      exact readCapped_length_le _ _ hrc (by simp)
    | some c =>
      by_cases hf : compileFailed l env = true
      · rw [show (launch env path l s o).1 = _ from
          congrArg Prod.fst (launch_fail env path l s o c hl hf)]
        exact readCapped_length_le _ _ hcc (by simp)
      · rw [launch_fst_pass env path l s o (by simpa using hf)]
        exact readCapped_length_le _ _ hrc (by simp)
  · intro n
    refine ⟨floodEnv (n + 1), ?_⟩
    rw [launch_fst_pass _ _ _ _ _ (compileFailed_floodEnv l (n + 1))]
    have hlen : (runResult (floodEnv (n + 1))).stdout.length = n + 1 := by
      simpa [runResult, floodEnv] using
        readStdoutPhase_replicate (n + 1) [] (statusOfWait (WaitKind.exited 0))
    omega

/-- C2 witness: the amended stderr bound applied at a concrete input. -/
theorem stderr_overshoot_bound_wit :
    (launch bigStderrEnv ws noCompileLang emptySandbox
        defaultOpt).1.stderr.length ≤ stderrCap + bufferSize :=
  (stderr_overshoot_bound_stdout_unbounded ws noCompileLang emptySandbox
      defaultOpt).1 bigStderrEnv (by simp [bigStderrEnv])
    (by simp [bigStderrEnv, bufferSize])

/-- C3: when the run phase executes, a returned stdout strictly above the
`256 << 20` cap forces status `OutputLimitExceeded` whatever the wait status
was, and conversely status `OutputLimitExceeded` implies the returned stdout
is at or above the cap. -/
theorem ole_iff_stdout_over_cap (env : Env) (path : List Char) (l : Language)
    (s : Sandbox) (o : LaunchOption) (h : compileFailed l env = false) :
    (stdoutCap < (launch env path l s o).1.stdout.length →
        (launch env path l s o).1.status = .OutputLimitExceeded) ∧
      ((launch env path l s o).1.status = .OutputLimitExceeded →
        stdoutCap ≤ (launch env path l s o).1.stdout.length) := by
  rw [launch_fst_pass env path l s o h, runResult_status]
  constructor
  · intro hc
    rw [if_pos hc]
  · intro hole
    by_cases hc : stdoutCap < (runResult env).stdout.length
    · exact Nat.le_of_lt hc
    · rw [if_neg hc] at hole
      exact absurd hole (statusOfWait_ne_ole env.runWait)

/-- C3 witness: the claim applied at a concrete input. -/
theorem ole_iff_stdout_over_cap_wit :
    compileFailed noCompileLang bigStderrEnv = false ∧
      ((stdoutCap < (launch bigStderrEnv ws noCompileLang emptySandbox
            defaultOpt).1.stdout.length →
          (launch bigStderrEnv ws noCompileLang emptySandbox
            defaultOpt).1.status = .OutputLimitExceeded) ∧
        ((launch bigStderrEnv ws noCompileLang emptySandbox
            defaultOpt).1.status = .OutputLimitExceeded →
          stdoutCap ≤ (launch bigStderrEnv ws noCompileLang emptySandbox
            defaultOpt).1.stdout.length)) :=
  ⟨by decide,
   ole_iff_stdout_over_cap bigStderrEnv ws noCompileLang emptySandbox defaultOpt
     (by decide)⟩

theorem compile_some_of_failed (l : Language) (env : Env)
    (hf : compileFailed l env = true) : ∃ c, l.compile = some c := by
  rcases (compileFailed_iff l env).mp hf with ⟨hc, _⟩
  cases hx : l.compile with
  | none => exact absurd hx hc
  | some c => exact ⟨c, rfl⟩

/-- C4: `launch` returns `CompilationError` exactly when a compile command is
present and the compile child did not exit 0 (it exited non-zero or died by a
signal); in that case stdout is empty, both metrics are zero, stderr is the
compile collector's capture, and no run-phase child is ever spawned.  A
recipe without a compile command can never yield `CompilationError`. -/
theorem compilation_error_characterisation (env : Env) (path : List Char)
    (l : Language) (s : Sandbox) (o : LaunchOption) :
    ((launch env path l s o).1.status = .CompilationError ↔
        l.compile ≠ none ∧ env.compileWait ≠ .exited 0) ∧
      (compileFailed l env = true →
        (launch env path l s o).1.stdout = [] ∧
          (launch env path l s o).1.memory_kib = 0 ∧
          (launch env path l s o).1.user_time_ms = 0 ∧
          (launch env path l s o).1.stderr =
            readCapped env.compileStderrChunks [] ∧
          ∀ n cfg, Event.spawned .run n cfg ∉ (launch env path l s o).2) := by
  by_cases hf : compileFailed l env = true
  · obtain ⟨c, hl⟩ := compile_some_of_failed l env hf
    have hla := launch_fail env path l s o c hl hf
    constructor
    · rw [hla]
      simpa using (compileFailed_iff l env).mp hf
    · intro _
      refine ⟨by rw [hla], by rw [hla], by rw [hla], by rw [hla], ?_⟩
      intro n cfg hmem
      rw [hla] at hmem
      rcases List.mem_append.mp hmem with h1 | h1
      · have := ((mem_compileEvs_spawned env _ _ _).mp h1).1
        cases this
      · simp at h1
  · have hf2 : compileFailed l env = false := by simpa using hf
    constructor
    · rw [launch_fst_pass env path l s o hf2, runResult_status]
      constructor
      · intro hst
        by_cases hc : stdoutCap < (runResult env).stdout.length
        · rw [if_pos hc] at hst
          cases hst
        · rw [if_neg hc] at hst
          exact absurd hst (statusOfWait_ne_ce env.runWait)
      · intro hx
        have : compileFailed l env = true := (compileFailed_iff l env).mpr hx
        rw [hf2] at this
        cases this
    · intro hcontra
      rw [hf2] at hcontra
      cases hcontra

/-- C4 witness: the characterisation applied at a concrete failing compile. -/
theorem compilation_error_characterisation_wit :
    gccLang.compile ≠ none ∧ failCompileEnv.compileWait ≠ .exited 0 ∧
      (launch failCompileEnv ws gccLang emptySandbox defaultOpt).1.status =
        .CompilationError ∧
      (launch failCompileEnv ws gccLang emptySandbox defaultOpt).1.stdout = [] ∧
      (launch failCompileEnv ws gccLang emptySandbox defaultOpt).1.stderr =
        readCapped failCompileEnv.compileStderrChunks [] ∧
      Event.spawned .run 1048576 cloneCfg ∉
        (launch failCompileEnv ws gccLang emptySandbox defaultOpt).2 :=
  have h := compilation_error_characterisation failCompileEnv ws gccLang
    emptySandbox defaultOpt
  have h2 := h.2 (by decide)
  ⟨by decide, by decide, h.1.mpr ⟨by decide, by decide⟩, h2.1, h2.2.2.2.1,
   h2.2.2.2.2 1048576 cloneCfg⟩

/-- C5: the run-phase child performs, in order, `chdir` into the workspace
then `chroot` to it, closes fd 0 and opens `/stdin` read-only, closes fd 1
and duplicates the stdout pipe's write end onto it, closes fd 2 and
duplicates the stderr pipe's write end onto it, installs rlimits core = 0,
fsize = 0 and address space = `max_virtual_memory` (soft and hard), and
finally replaces the image with the execute path and its arguments under an
empty environment; the child is cloned in fresh user and network namespaces
with SIGCHLD delivered to the parent. -/
theorem run_child_setup (path : List Char) (l : Language) (o : LaunchOption) :
    (∀ env s, compileFailed l env = false →
        Event.spawned .run s.stack_size_bytes cloneCfg ∈
          (launch env path l s o).2) ∧
      cloneCfg = { newUser := true, newNet := true, exitSignal := some 17 } ∧
      (runChildOps path l o)[0]? = some (.doChdir path) ∧
      (runChildOps path l o)[1]? = some (.doChroot path) ∧
      (runChildOps path l o)[2]? = some (.doCloseFd 0) ∧
      (runChildOps path l o)[3]? = some (.doOpen "/stdin".data true) ∧
      (runChildOps path l o)[4]? = some (.doCloseFd 1) ∧
      (runChildOps path l o)[5]? = some (.doDup2 .runStdoutTx 1) ∧
      (runChildOps path l o)[7]? = some (.doCloseFd 2) ∧
      (runChildOps path l o)[8]? = some (.doDup2 .runStderrTx 2) ∧
      (runChildOps path l o)[10]? = some (.doSetrlimitCore 0 0) ∧
      (runChildOps path l o)[11]? = some (.doSetrlimitFsize 0 0) ∧
      (runChildOps path l o)[12]? =
        some (.doSetrlimitAs o.max_virtual_memory o.max_virtual_memory) ∧
      (runChildOps path l o)[13]? =
        some (.doExecve l.execute.data
          (l.execute.data :: l.args.map String.data) []) ∧
      (runChildOps path l o).length = 14 := by
  refine ⟨?_, rfl, rfl, rfl, rfl, rfl, rfl, rfl, rfl, rfl, rfl, rfl, rfl, rfl, rfl⟩
  intro env s h
  cases hl : l.compile with
  | none =>
    rw [launch_snd_none env path l s o hl]
    exact (mem_runEvs_spawned env path s _ _ _).mpr ⟨rfl, rfl, rfl⟩
  | some c =>
    rw [launch_snd_pass env path l s o c hl h]
    exact List.mem_append.mpr
      (Or.inr ((mem_runEvs_spawned env path s _ _ _).mpr ⟨rfl, rfl, rfl⟩))

/-- C5 witness: the spawn-membership part applied at a concrete input. -/
theorem run_child_setup_wit :
    Event.spawned .run emptySandbox.stack_size_bytes cloneCfg ∈
      (launch selfKillEnv ws noCompileLang emptySandbox defaultOpt).2 :=
  (run_child_setup ws noCompileLang defaultOpt).1 selfKillEnv emptySandbox
    (by decide)

/-- C10 (implicit): when the compile phase succeeds, the compile stderr pipe
is never drained — no `read` on its read end occurs — and the returned
stderr comes solely from the run-phase stderr pipe. -/
theorem compile_stderr_discarded_on_success (env : Env) (path : List Char)
    (l : Language) (s : Sandbox) (o : LaunchOption) (hc : l.compile ≠ none)
    (h : compileFailed l env = false) :
    (launch env path l s o).1.stderr = readCapped env.runStderrChunks [] ∧
      Event.readPipe .compileStderrRx ∉ (launch env path l s o).2 := by
  obtain ⟨c, hl⟩ : ∃ c, l.compile = some c := by
    cases hx : l.compile with
    | none => exact absurd hx hc
    | some c => exact ⟨c, rfl⟩
  constructor
  · rw [launch_fst_pass env path l s o h]
    rfl
  · rw [launch_snd_pass env path l s o c hl h]
    intro hm
    rcases List.mem_append.mp hm with h1 | h1
    · exact not_mem_compileEvs_readPipe env _ h1
    · rcases (mem_runEvs_readPipe env path s _).mp h1 with h2 | h2 <;> cases h2

/-- C10 witness: applied at a concrete input with a successful compile. -/
theorem compile_stderr_discarded_wit :
    (launch selfKillEnv ws gccLang emptySandbox defaultOpt).1.stderr =
        readCapped selfKillEnv.runStderrChunks [] ∧
      Event.readPipe .compileStderrRx ∉
        (launch selfKillEnv ws gccLang emptySandbox defaultOpt).2 :=
  compile_stderr_discarded_on_success selfKillEnv ws gccLang emptySandbox
    defaultOpt (by decide) (by decide)

theorem launch_snd_fail (env : Env) (path : List Char) (l : Language)
    (s : Sandbox) (o : LaunchOption) (c : String) (hl : l.compile = some c)
    (hf : compileFailed l env = true) :
    (launch env path l s o).2 =
      compileEvs env ++ [Event.readPipe .compileStderrRx] := by
  rw [launch_fail env path l s o c hl hf]

/-- C6: mounts are scoped to the run phase.  On compile failure the trace
holds no mount and no unmount at all; otherwise the trace splits around the
run child's spawn and reap so that every mount precedes the spawn, every
unmount follows the reap, the mounted and unmounted destination lists agree,
and (when a compile phase ran) every mount also follows the compile child's
reap. -/
theorem mounts_scoped_to_run (env : Env) (path : List Char) (l : Language)
    (s : Sandbox) (o : LaunchOption) :
    (compileFailed l env = true →
        mountedDests (launch env path l s o).2 = [] ∧
          unmountedDests (launch env path l s o).2 = []) ∧
      (compileFailed l env = false →
        ∃ t1 t2 t3,
          (launch env path l s o).2 =
              t1 ++ Event.spawned .run s.stack_size_bytes cloneCfg ::
                (t2 ++ Event.reaped .run :: t3) ∧
            mountedDests t1 = s.mounts.map (mountDest path) ∧
            mountedDests t2 = [] ∧ mountedDests t3 = [] ∧
            unmountedDests t1 = [] ∧ unmountedDests t2 = [] ∧
            unmountedDests t3 = s.mounts.map (mountDest path)) ∧
      (l.compile ≠ none → compileFailed l env = false →
        ∃ u1 u2,
          (launch env path l s o).2 = u1 ++ Event.reaped .comp :: u2 ∧
            mountedDests u1 = [] ∧
            mountedDests u2 = s.mounts.map (mountDest path)) := by
  refine ⟨?_, ?_, ?_⟩
  · intro hf
    obtain ⟨c, hl⟩ := compile_some_of_failed l env hf
    rw [launch_snd_fail env path l s o c hl hf]
    constructor
    · simp [mountedDests_append, mountedDests_compileEvs, mountedDests_cons,
        mountedDests_nil]
    · simp [unmountedDests_append, unmountedDests_compileEvs,
        unmountedDests_cons, unmountedDests_nil]
  · intro hf
    cases hl : l.compile with
    | none =>
      rw [launch_snd_none env path l s o hl]
      refine ⟨[.pipeCreated .runStdoutRx .runStdoutTx,
          .pipeCreated .runStderrRx .runStderrTx] ++ mountEvents path s.mounts,
        (if env.runKillFired then [.sentKill .run] else []),
        umountEvents path s.mounts ++
          [.closedFd .runStdoutTx, .closedFd .runStderrTx,
           .readPipe .runStdoutRx, .readPipe .runStderrRx],
        rfl, ?_, ?_, ?_, ?_, ?_, ?_⟩
      · simp [mountedDests_append, mountedDests_cons, mountedDests_nil,
          mountedDests_mountEvents]
      · cases hk : env.runKillFired <;>
          simp [mountedDests_cons, mountedDests_nil]
      · simp [mountedDests_append, mountedDests_umountEvents,
          mountedDests_cons, mountedDests_nil]
      · simp [unmountedDests_append, unmountedDests_cons, unmountedDests_nil,
          unmountedDests_mountEvents]
      · cases hk : env.runKillFired <;>
          simp [unmountedDests_cons, unmountedDests_nil]
      · simp [unmountedDests_append, unmountedDests_umountEvents,
          unmountedDests_cons, unmountedDests_nil]
    | some c =>
      rw [launch_snd_pass env path l s o c hl hf]
      refine ⟨compileEvs env ++
          ([.pipeCreated .runStdoutRx .runStdoutTx,
            .pipeCreated .runStderrRx .runStderrTx] ++
            mountEvents path s.mounts),
        (if env.runKillFired then [.sentKill .run] else []),
        umountEvents path s.mounts ++
          [.closedFd .runStdoutTx, .closedFd .runStderrTx,
           .readPipe .runStdoutRx, .readPipe .runStderrRx],
        by simp [runEvs, List.append_assoc], ?_, ?_, ?_, ?_, ?_, ?_⟩
      · simp [mountedDests_append, mountedDests_compileEvs,
          mountedDests_cons, mountedDests_nil, mountedDests_mountEvents]
      · cases hk : env.runKillFired <;>
          simp [mountedDests_cons, mountedDests_nil]
      · simp [mountedDests_append, mountedDests_umountEvents,
          mountedDests_cons, mountedDests_nil]
      · simp [unmountedDests_append, unmountedDests_compileEvs,
          unmountedDests_cons, unmountedDests_nil, unmountedDests_mountEvents]
      · cases hk : env.runKillFired <;>
          simp [unmountedDests_cons, unmountedDests_nil]
      · simp [unmountedDests_append, unmountedDests_umountEvents,
          unmountedDests_cons, unmountedDests_nil]
  · intro hc hf
    obtain ⟨c, hl⟩ : ∃ c, l.compile = some c := by
      cases hx : l.compile with
      | none => exact absurd hx hc
      | some c => exact ⟨c, rfl⟩
    rw [launch_snd_pass env path l s o c hl hf]
    refine ⟨[.pipeCreated .compileStderrRx .compileStderrTx,
        .spawned .comp compileStackBytes cloneCfg] ++
        (if env.compileKillFired then [.sentKill .comp] else []),
      Event.closedFd .compileStderrTx :: runEvs env path s, ?_, ?_, ?_⟩
    · simp [compileEvs, List.append_assoc]
    · cases hck : env.compileKillFired <;>
        simp [hck, mountedDests_cons, mountedDests_nil]
    · simp [mountedDests_cons, mountedDests_runEvs]

/-- C6 witness: on a concrete failing compile, the trace holds no mount and
no unmount. -/
theorem mounts_scoped_to_run_wit :
    mountedDests (launch failCompileEnv ws gccLang usrSandbox defaultOpt).2 =
        [] ∧
      unmountedDests
        (launch failCompileEnv ws gccLang usrSandbox defaultOpt).2 = [] :=
  (mounts_scoped_to_run failCompileEnv ws gccLang usrSandbox defaultOpt).1
    (by decide)

/-- C7: when the run phase executes, the mounted destinations are exactly
`workspace / destination-with-leading-slashes-stripped` for the profile's
mounts in list order; each mount is immediately preceded by the recursive
directory creation of its destination; and every mounted event carries the
source, computed destination and the read-only/noatime/nodiratime bind
flags of some profile entry. -/
theorem mount_loop_shape (env : Env) (path : List Char) (l : Language)
    (s : Sandbox) (o : LaunchOption) (h : compileFailed l env = false) :
    mountedDests (launch env path l s o).2 = s.mounts.map (mountDest path) ∧
      (∀ m ∈ s.mounts, ∃ u v,
          (launch env path l s o).2 =
            u ++ Event.mkdirAll (mountDest path m) ::
              Event.mounted m.source.data (mountDest path m) bindFlags :: v) ∧
      (∀ src d fl, Event.mounted src d fl ∈ (launch env path l s o).2 →
          ∃ m ∈ s.mounts,
            src = m.source.data ∧ d = mountDest path m ∧ fl = bindFlags) := by
  refine ⟨?_, ?_, ?_⟩
  · cases hl : l.compile with
    | none =>
      rw [launch_snd_none env path l s o hl]
      exact mountedDests_runEvs env path s
    | some c =>
      rw [launch_snd_pass env path l s o c hl h]
      simp [mountedDests_append, mountedDests_compileEvs, mountedDests_runEvs]
  · intro m hm
    obtain ⟨u, v, huv⟩ := mountEvents_decomp path s.mounts m hm
    cases hl : l.compile with
    | none =>
      rw [launch_snd_none env path l s o hl]
      refine ⟨[.pipeCreated .runStdoutRx .runStdoutTx,
          .pipeCreated .runStderrRx .runStderrTx] ++ u,
        v ++ Event.spawned .run s.stack_size_bytes cloneCfg ::
          ((if env.runKillFired then [.sentKill .run] else []) ++
            Event.reaped .run ::
              (umountEvents path s.mounts ++
                [.closedFd .runStdoutTx, .closedFd .runStderrTx,
                 .readPipe .runStdoutRx, .readPipe .runStderrRx])), ?_⟩
      simp [runEvs, huv, List.append_assoc]
    | some c =>
      rw [launch_snd_pass env path l s o c hl h]
      refine ⟨compileEvs env ++
          ([.pipeCreated .runStdoutRx .runStdoutTx,
            .pipeCreated .runStderrRx .runStderrTx] ++ u),
        v ++ Event.spawned .run s.stack_size_bytes cloneCfg ::
          ((if env.runKillFired then [.sentKill .run] else []) ++
            Event.reaped .run ::
              (umountEvents path s.mounts ++
                [.closedFd .runStdoutTx, .closedFd .runStderrTx,
                 .readPipe .runStdoutRx, .readPipe .runStderrRx])), ?_⟩
      simp [runEvs, huv, List.append_assoc]
  · intro src d fl hm
    have hrun : Event.mounted src d fl ∈ mountEvents path s.mounts := by
      cases hl : l.compile with
      | none =>
        rw [launch_snd_none env path l s o hl] at hm
        exact (mem_runEvs_mounted env path s src d fl).mp hm
      | some c =>
        rw [launch_snd_pass env path l s o c hl h] at hm
        rcases List.mem_append.mp hm with h1 | h1
        · exact absurd h1 (not_mem_compileEvs_mounted env src d fl)
        · exact (mem_runEvs_mounted env path s src d fl).mp h1
    rcases (mem_mountEvents _ path s.mounts).mp hrun with ⟨m, hmem, h1 | h1⟩
    · cases h1
    · obtain ⟨hsrc, hd, hfl⟩ := Event.mounted.inj h1
      exact ⟨m, hmem, hsrc, hd, hfl⟩

/-- C7 witness: the destination computation applied at a concrete input. -/
theorem mount_loop_shape_wit :
    mountedDests (launch selfKillEnv ws noCompileLang usrSandbox
        defaultOpt).2 = usrSandbox.mounts.map (mountDest ws) :=
  (mount_loop_shape selfKillEnv ws noCompileLang usrSandbox defaultOpt
    (by decide)).1

/-- C8: contrary to the spec's guarantee, the parent never closes the read
ends of its pipes on any exit path: no trace of `launch` contains a close of
`stdout_rx`, `stderr_rx` or the compile phase's `stderr_rx` — only the three
write ends are ever closed (`src/lib.rs` lines 120, 229, 230). -/
theorem pipe_read_ends_never_closed (env : Env) (path : List Char)
    (l : Language) (s : Sandbox) (o : LaunchOption) :
    Event.closedFd .runStdoutRx ∉ (launch env path l s o).2 ∧
      Event.closedFd .runStderrRx ∉ (launch env path l s o).2 ∧
      Event.closedFd .compileStderrRx ∉ (launch env path l s o).2 := by
  have key : ∀ fd, Event.closedFd fd ∈ (launch env path l s o).2 →
      fd = .compileStderrTx ∨ fd = .runStdoutTx ∨ fd = .runStderrTx := by
    intro fd hm
    cases hl : l.compile with
    | none =>
      rw [launch_snd_none env path l s o hl] at hm
      rcases (mem_runEvs_closedFd env path s fd).mp hm with h1 | h1
      · exact Or.inr (Or.inl h1)
      · exact Or.inr (Or.inr h1)
    | some c =>
      by_cases hf : compileFailed l env = true
      · rw [launch_snd_fail env path l s o c hl hf] at hm
        rcases List.mem_append.mp hm with h1 | h1
        · exact Or.inl ((mem_compileEvs_closedFd env fd).mp h1)
        · simp at h1
      · rw [launch_snd_pass env path l s o c hl (by simpa using hf)] at hm
        rcases List.mem_append.mp hm with h1 | h1
        · exact Or.inl ((mem_compileEvs_closedFd env fd).mp h1)
        · rcases (mem_runEvs_closedFd env path s fd).mp h1 with h2 | h2
          · exact Or.inr (Or.inl h2)
          · exact Or.inr (Or.inr h2)
  refine ⟨fun hm => ?_, fun hm => ?_, fun hm => ?_⟩ <;>
    rcases key _ hm with h | h | h <;> exact Fd.noConfusion h

/-- C9 counterexample: with a profile whose `child_stack_bytes` is 4096, the
compile child is still spawned on the fixed `vec![0; 1048576]` stack of
`src/lib.rs` line 86, not on a 4096-byte one. -/
theorem compile_stack_ignores_profile :
    smallStackSandbox.stack_size_bytes = 4096 ∧
      Event.spawned .comp 1048576 cloneCfg ∈
        (launch failCompileEnv ws gccLang smallStackSandbox defaultOpt).2 ∧
      Event.spawned .comp 4096 cloneCfg ∉
        (launch failCompileEnv ws gccLang smallStackSandbox defaultOpt).2 := by
  refine ⟨rfl, ?_, ?_⟩ <;> decide

/-- C9 (amended): only the run-phase child is spawned on the profile's
`child_stack_bytes`-sized stack; the compile-phase child is always spawned
on a fixed 1 MiB (1048576-byte) stack, and no other spawns occur. -/
theorem spawn_stack_sizes (env : Env) (path : List Char) (l : Language)
    (s : Sandbox) (o : LaunchOption) :
    (l.compile ≠ none →
        Event.spawned .comp compileStackBytes cloneCfg ∈
          (launch env path l s o).2) ∧
      (compileFailed l env = false →
        Event.spawned .run s.stack_size_bytes cloneCfg ∈
          (launch env path l s o).2) ∧
      (∀ p n cfg, Event.spawned p n cfg ∈ (launch env path l s o).2 →
        cfg = cloneCfg ∧
          ((p = .comp ∧ n = compileStackBytes) ∨
            (p = .run ∧ n = s.stack_size_bytes))) := by
  refine ⟨?_, ?_, ?_⟩
  · intro hc
    obtain ⟨c, hl⟩ : ∃ c, l.compile = some c := by
      cases hx : l.compile with
      | none => exact absurd hx hc
      | some c => exact ⟨c, rfl⟩
    by_cases hf : compileFailed l env = true
    · rw [launch_snd_fail env path l s o c hl hf]
      exact List.mem_append.mpr
        (Or.inl ((mem_compileEvs_spawned env _ _ _).mpr ⟨rfl, rfl, rfl⟩))
    · rw [launch_snd_pass env path l s o c hl (by simpa using hf)]
      exact List.mem_append.mpr
        (Or.inl ((mem_compileEvs_spawned env _ _ _).mpr ⟨rfl, rfl, rfl⟩))
  · intro hf
    cases hl : l.compile with
    | none =>
      rw [launch_snd_none env path l s o hl]
      exact (mem_runEvs_spawned env path s _ _ _).mpr ⟨rfl, rfl, rfl⟩
    | some c =>
      rw [launch_snd_pass env path l s o c hl hf]
      exact List.mem_append.mpr
        (Or.inr ((mem_runEvs_spawned env path s _ _ _).mpr ⟨rfl, rfl, rfl⟩))
  · intro p n cfg hm
    cases hl : l.compile with
    | none =>
      rw [launch_snd_none env path l s o hl] at hm
      obtain ⟨hp, hn, hcfg⟩ := (mem_runEvs_spawned env path s p n cfg).mp hm
      exact ⟨hcfg, Or.inr ⟨hp, hn⟩⟩
    | some c =>
      by_cases hf : compileFailed l env = true
      · rw [launch_snd_fail env path l s o c hl hf] at hm
        rcases List.mem_append.mp hm with h1 | h1
        · obtain ⟨hp, hn, hcfg⟩ := (mem_compileEvs_spawned env p n cfg).mp h1
          exact ⟨hcfg, Or.inl ⟨hp, hn⟩⟩
        · simp at h1
      · rw [launch_snd_pass env path l s o c hl (by simpa using hf)] at hm
        rcases List.mem_append.mp hm with h1 | h1
        · obtain ⟨hp, hn, hcfg⟩ := (mem_compileEvs_spawned env p n cfg).mp h1
          exact ⟨hcfg, Or.inl ⟨hp, hn⟩⟩
        · obtain ⟨hp, hn, hcfg⟩ := (mem_runEvs_spawned env path s p n cfg).mp h1
          exact ⟨hcfg, Or.inr ⟨hp, hn⟩⟩

/-- C9 witness: the amended claim applied at a concrete input. -/
theorem spawn_stack_sizes_wit :
    Event.spawned .comp compileStackBytes cloneCfg ∈
        (launch failCompileEnv ws gccLang smallStackSandbox defaultOpt).2 ∧
      Event.spawned .run smallStackSandbox.stack_size_bytes cloneCfg ∈
        (launch selfKillEnv ws gccLang smallStackSandbox defaultOpt).2 :=
  ⟨(spawn_stack_sizes failCompileEnv ws gccLang smallStackSandbox
      defaultOpt).1 (by decide),
   (spawn_stack_sizes selfKillEnv ws gccLang smallStackSandbox
      defaultOpt).2.1 (by decide)⟩

end Worker
